import Mathlib

/-!
Shallow embedding of the node-flow repository's core state machines:
the undo/redo History Tracker (src/hooks/useUndoRedo.ts), the
Table/Schema State Store (src/context/TableManagementContext.tsx and
services/LocalStorageDataService.ts), connection validation
(src/components/FlowCanvas.tsx) and the CSV export/import pipeline
(src/utils, in src/FlowCanvas.js).

Modelling conventions:
* JavaScript numbers appearing in the data model (grid positions, row
  counts, numeric cell values) are modelled as `Int`; all values used by
  the program at these sites are integer-valued.
* JS objects with an open key set (table rows, partial updates) are
  modelled as association lists `List (String × Value)` with
  first-match lookup; object spread `{a, ...b}` is `mergeObj a b`.
* Asynchronous storage-adapter calls are modelled by a boolean
  success flag; a rejected promise corresponds to `ok = false` and the
  `throw` in the source corresponds to an `Except.error` result.
-/

namespace NodeFlow

/-! ## Data model (src/types/flow.ts) -/

/-- 2-D position `{ x, y }`. -/
structure Position where
  x : Int
  y : Int
deriving DecidableEq, Repr

/-- `TableColumn` from src/types/flow.ts. -/
structure TableColumn where
  id : String
  name : String
  dataType : String
  description : Option String := none
deriving DecidableEq, Repr

/-- The `data` record of a `FlowNode` (src/types/flow.ts). -/
structure FlowNodeData where
  label : String
  description : Option String := none
  color : Option String := none
  category : Option String := none
  createdAt : String := ""
  updatedAt : String := ""
  tableColumns : Option (List TableColumn) := none
  tableName : Option String := none
  inputColumns : Option (List String) := none
  outputColumns : Option (List TableColumn) := none
  processLogic : Option String := none
  pythonCode : Option String := none
deriving DecidableEq, Repr

/-- `FlowNode` from src/types/flow.ts. -/
structure FlowNode where
  id : String
  type : String
  position : Position
  data : FlowNodeData
deriving DecidableEq, Repr

/-- `FlowEdge` from src/types/flow.ts. -/
structure FlowEdge where
  id : String
  source : String
  target : String
  type : Option String := none
  animated : Option Bool := none
  sourceHandle : Option String := none
  targetHandle : Option String := none
deriving DecidableEq, Repr

/-! ## History Tracker (src/hooks/useUndoRedo.ts) -/

/-- `FlowState` snapshot `{ nodes, edges }` from useUndoRedo.ts. -/
structure FlowState where
  nodes : List FlowNode
  edges : List FlowEdge
deriving DecidableEq, Repr

/-- `MAX_HISTORY_SIZE = 50` from useUndoRedo.ts. -/
def MAX_HISTORY_SIZE : Nat := 50

/-- The state held by the `useUndoRedo` hook: the `history` array, the
`currentIndex` cursor, and the `isUndoRedoAction` replay-suppression
flag (`useRef(false)`). -/
structure HistState where
  history : List FlowState
  currentIndex : Nat
  isUndoRedoAction : Bool
deriving DecidableEq, Repr

/-- Initial hook state: `history = [{nodes: initialNodes, edges:
initialEdges}]`, `currentIndex = 0`, flag cleared. -/
def initHistState (initialNodes : List FlowNode) (initialEdges : List FlowEdge) : HistState :=
  { history := [{ nodes := initialNodes, edges := initialEdges }]
    currentIndex := 0
    isUndoRedoAction := false }

/-- `saveState(nodes, edges)`: no-op while `isUndoRedoAction` is set;
otherwise truncate the redo branch (`prev.slice(0, currentIndex + 1)`),
append the new snapshot, cap the log at `MAX_HISTORY_SIZE`
(`updatedHistory.slice(-MAX_HISTORY_SIZE)`), and advance the cursor
(`Math.min(prev + 1, MAX_HISTORY_SIZE - 1)`). -/
def saveState (st : HistState) (nodes : List FlowNode) (edges : List FlowEdge) : HistState :=
  if st.isUndoRedoAction then st
  else
    let newHistory := st.history.take (st.currentIndex + 1)
    let updatedHistory := newHistory ++ [{ nodes := nodes, edges := edges }]
    let cappedHistory :=
      if updatedHistory.length > MAX_HISTORY_SIZE then
        updatedHistory.drop (updatedHistory.length - MAX_HISTORY_SIZE)
      else updatedHistory
    { st with
      history := cappedHistory
      currentIndex := min (st.currentIndex + 1) (MAX_HISTORY_SIZE - 1) }

/-- `undo()`: no-op when `currentIndex = 0`; otherwise decrement the
cursor.  The source raises `isUndoRedoAction` and a 100 ms timer lowers
it again; the transition modelled here is the settled state after that
timer has fired (replaying mode is entered and exited within the
operation), so the flag ends cleared. -/
def undo (st : HistState) : HistState :=
  if st.currentIndex > 0 then
    { st with currentIndex := st.currentIndex - 1, isUndoRedoAction := false }
  else st

/-- `redo()`: no-op when `currentIndex = history.length - 1`; otherwise
increment the cursor, with the same replay-flag bracketing as `undo`. -/
def redo (st : HistState) : HistState :=
  if st.currentIndex < st.history.length - 1 then
    { st with currentIndex := st.currentIndex + 1, isUndoRedoAction := false }
  else st

/-- `clearHistory()`: reset the log to a single empty snapshot and the
cursor to 0. -/
def clearHistory (st : HistState) : HistState :=
  { st with history := [{ nodes := [], edges := [] }], currentIndex := 0 }

/-- `getCurrentState()`: `history[currentIndex] || { nodes: [], edges:
[] }` — the snapshot at the cursor, with an empty fallback when the
index is out of bounds. -/
def getCurrentState (st : HistState) : FlowState :=
  st.history.getD st.currentIndex { nodes := [], edges := [] }

/-- One externally visible History Tracker operation. -/
inductive HistOp where
  | save (nodes : List FlowNode) (edges : List FlowEdge)
  | undo
  | redo
  | clear
deriving Repr

/-- Apply one History Tracker operation. -/
def applyHistOp (st : HistState) : HistOp → HistState
  | .save nodes edges => saveState st nodes edges
  | .undo => undo st
  | .redo => redo st
  | .clear => clearHistory st

/-- Apply a sequence of History Tracker operations, oldest first. -/
def applyHistOps (st : HistState) (ops : List HistOp) : HistState :=
  ops.foldl applyHistOp st

/-- Structure eta for snapshots: rebuilding a snapshot from its fields
is the identity. -/
@[simp]
theorem FlowState.mk_eta (s : FlowState) : (⟨s.nodes, s.edges⟩ : FlowState) = s := rfl

/-- Trajectory of a pure run of `saveState` calls starting from a state
whose cursor sits on the newest entry of a non-empty log of at most 50
entries: the final log is the last 50 elements of the virtual full log,
and the cursor stays on the newest entry. -/
theorem saveAll_spec (snaps : List FlowState) :
    ∀ h : List FlowState, h ≠ [] → h.length ≤ 50 →
      applyHistOps ⟨h, h.length - 1, false⟩ (snaps.map fun s => HistOp.save s.nodes s.edges)
        = ⟨(h ++ snaps).drop ((h ++ snaps).length - 50),
           min ((h ++ snaps).length - 1) 49, false⟩ := by
  induction snaps with
  | nil =>
    intro h hne hle
    have h1 : h.length - 50 = 0 := by omega
    have h2 : min (h.length - 1) 49 = h.length - 1 := by omega
    simp [applyHistOps, h1, h2]
  | cons s rest ih =>
    intro h hne hle
    have hlen : 1 ≤ h.length := List.length_pos.mpr hne
    have e1 : h.length - 1 + 1 = h.length := by omega
    have hstep : applyHistOps ⟨h, h.length - 1, false⟩ ((s :: rest).map fun t => HistOp.save t.nodes t.edges)
        = applyHistOps (saveState ⟨h, h.length - 1, false⟩ s.nodes s.edges)
            (rest.map fun t => HistOp.save t.nodes t.edges) := rfl
    rw [hstep]
    by_cases hc : h.length ≤ 49
    · -- below the cap: plain append, cursor advances
      have hsave : saveState ⟨h, h.length - 1, false⟩ s.nodes s.edges
          = ⟨h ++ [s], (h ++ [s]).length - 1, false⟩ := by
        simp only [saveState, if_neg (by simp : ¬ (false = true))]
        simp only [e1, List.take_length, FlowState.mk_eta]
        have hng : ¬ (h ++ [s]).length > MAX_HISTORY_SIZE := by
          simp [MAX_HISTORY_SIZE]; omega
        rw [if_neg hng]
        congr 1
        simp [MAX_HISTORY_SIZE]
        omega
      rw [hsave, ih (h ++ [s]) (by simp) (by simp; omega)]
      simp [List.append_assoc]
    · -- at the cap: evict the oldest entry, cursor clamps to 49
      have hc50 : h.length = 50 := by omega
      have hsave : saveState ⟨h, h.length - 1, false⟩ s.nodes s.edges
          = ⟨(h ++ [s]).drop 1, 49, false⟩ := by
        simp only [saveState, if_neg (by simp : ¬ (false = true))]
        simp only [e1, List.take_length, FlowState.mk_eta]
        have hg : (h ++ [s]).length > MAX_HISTORY_SIZE := by
          simp [MAX_HISTORY_SIZE]; omega
        rw [if_pos hg]
        have hd : (h ++ [s]).length - MAX_HISTORY_SIZE = 1 := by
          simp [MAX_HISTORY_SIZE]; omega
        rw [hd]
        congr 1
        simp [MAX_HISTORY_SIZE]
        omega
      have hlen' : ((h ++ [s]).drop 1).length = 50 := by
        simp; omega
      have h49 : (49 : Nat) = ((h ++ [s]).drop 1).length - 1 := by omega
      rw [hsave, h49, ih ((h ++ [s]).drop 1) (by rw [← List.length_pos, hlen']; omega) (by omega)]
      have hsplit : (h ++ [s]).drop 1 ++ rest = (h ++ s :: rest).drop 1 := by
        rw [show h ++ s :: rest = (h ++ [s]) ++ rest by simp]
        exact (List.drop_append_of_le_length (by simp)).symm
      have hTlen : (h ++ s :: rest).length = 51 + rest.length := by simp; omega
      rw [hsplit, List.drop_drop, List.length_drop, hTlen]
      congr 1
      · congr 1
        omega
      · omega

/-- C2: pushing more than 50 snapshots from a fresh history retains
exactly the 50 most recent snapshots in order (the oldest entries are
evicted first), and the cursor points at the latest (newest) entry. -/
theorem C2_fifty_entry_cap (snaps : List FlowState) (hlen : 50 < snaps.length) :
    (applyHistOps (initHistState [] []) (snaps.map fun s => HistOp.save s.nodes s.edges)).history
        = snaps.drop (snaps.length - 50)
    ∧ (applyHistOps (initHistState [] []) (snaps.map fun s => HistOp.save s.nodes s.edges)).history.length = 50
    ∧ (applyHistOps (initHistState [] []) (snaps.map fun s => HistOp.save s.nodes s.edges)).currentIndex
        = (applyHistOps (initHistState [] []) (snaps.map fun s => HistOp.save s.nodes s.edges)).history.length - 1
    ∧ (applyHistOps (initHistState [] []) (snaps.map fun s => HistOp.save s.nodes s.edges)).currentIndex = 49 := by
  have hinit : initHistState [] []
      = ⟨[({ nodes := [], edges := [] } : FlowState)],
         ([({ nodes := [], edges := [] } : FlowState)]).length - 1, false⟩ := rfl
  rw [hinit, saveAll_spec snaps [{ nodes := [], edges := [] }] (by simp) (by simp)]
  have hT : (([({ nodes := [], edges := [] } : FlowState)]) ++ snaps).length
      = snaps.length + 1 := by simp
  have hd : (([({ nodes := [], edges := [] } : FlowState)]) ++ snaps).length - 50
      = (snaps.length - 50) + 1 := by rw [hT]; omega
  have hdrop : (([({ nodes := [], edges := [] } : FlowState)]) ++ snaps).drop
        ((([({ nodes := [], edges := [] } : FlowState)]) ++ snaps).length - 50)
      = snaps.drop (snaps.length - 50) := by
    rw [hd]
    simp [List.drop_succ_cons]
  dsimp only
  refine ⟨hdrop, ?_, ?_, ?_⟩
  · rw [hdrop, List.length_drop]; omega
  · rw [hdrop, List.length_drop, hT]; omega
  · rw [hT]; omega

/-- Witness for C2 at a concrete run of 51 `saveState` calls. -/
theorem C2_fifty_entry_cap_witness :
    50 < (List.replicate 51 (⟨[], []⟩ : FlowState)).length
    ∧ (applyHistOps (initHistState [] [])
          ((List.replicate 51 (⟨[], []⟩ : FlowState)).map fun s => HistOp.save s.nodes s.edges)).history
        = (List.replicate 51 (⟨[], []⟩ : FlowState)).drop
            ((List.replicate 51 (⟨[], []⟩ : FlowState)).length - 50) :=
  ⟨by simp, (C2_fifty_entry_cap (List.replicate 51 ⟨[], []⟩) (by simp)).1⟩

/-! ## Table/Schema data model (src/types/index.ts) -/

/-- A scalar JavaScript value stored in a table cell: string, number
(the program only ever stores integer-valued numbers at these sites),
or boolean. -/
inductive ScalarValue where
  | sStr (s : String)
  | sNum (n : Int)
  | sBool (b : Bool)
deriving DecidableEq, Repr

/-- A JavaScript value stored in a table row: a scalar, or — for a
list column — an array of scalars (per the data model, a list column
holds a sequence of values of its scalar type). -/
inductive Value where
  | scalar (v : ScalarValue)
  | list (items : List ScalarValue)
deriving DecidableEq, Repr

/-- A string value. -/
def Value.vStr (s : String) : Value := .scalar (.sStr s)

/-- A number value. -/
def Value.vNum (n : Int) : Value := .scalar (.sNum n)

/-- A boolean value. -/
def Value.vBool (b : Bool) : Value := .scalar (.sBool b)

/-- A JS object with an open key set (a `TableRow` or a partial row
update), modelled as an association list with first-match lookup. -/
abbrev RowObj := List (String × Value)

/-- JS object spread `{...base, ...over}`: keys of `base` not present
in `over`, followed by all of `over` (whose values win). -/
def mergeObj (base over : RowObj) : RowObj :=
  base.filter (fun p => over.all (fun q => q.1 ≠ p.1)) ++ over

/-- The `id` field of a row object, when it is a string (JS `row.id`). -/
def rowIdOf (row : RowObj) : Option String :=
  match row.lookup "id" with
  | some (.scalar (.sStr s)) => some s
  | _ => none

/-- `Column` from src/types/index.ts. -/
structure Column where
  id : String
  name : String
  type : String
  required : Bool
  unique : Bool
  isList : Option Bool := none
deriving DecidableEq, Repr

/-- `TableSchema` from src/types/index.ts. -/
structure TableSchema where
  id : String
  name : String
  columns : List Column
  position : Option Position := none
deriving DecidableEq, Repr

/-- `Partial<TableSchema>`: every field optional. A `position` key may
itself be present with value `undefined`, hence the nested option. -/
structure PartialTableSchema where
  id : Option String := none
  name : Option String := none
  columns : Option (List Column) := none
  position : Option (Option Position) := none
deriving DecidableEq, Repr

/-- JS object spread `{...table, ...updates}` for a schema and a
partial update. -/
def mergeTableSchema (t : TableSchema) (u : PartialTableSchema) : TableSchema :=
  { id := u.id.getD t.id
    name := u.name.getD t.name
    columns := u.columns.getD t.columns
    position := u.position.getD t.position }

/-- `Relationship` from src/types/index.ts. -/
structure Relationship where
  id : String
  fromTableId : String
  fromColumnId : String
  toTableId : String
  toColumnId : String
  type : String
deriving DecidableEq, Repr

/-- `TableData` from src/types/index.ts: a per-table schema copy plus
the table's rows. -/
structure TableData where
  schema : TableSchema
  rows : List RowObj
deriving DecidableEq, Repr

/-- `DatabaseSchema` from src/types/index.ts. -/
structure DatabaseSchema where
  tables : List TableSchema
  relationships : List Relationship
deriving DecidableEq, Repr

/-! ## Table/Schema State Store (src/context/TableManagementContext.tsx)

Each operation `await`s the storage adapter and only then applies the
optimistic in-memory update; a rejected adapter promise is modelled by
the success flag `ok = false`, in which case the `catch` block rethrows
(`Except.error`) and no state update runs. -/

/-- The provider's in-memory state: the `tableData` list and the
aggregate `schema`. -/
structure StoreState where
  tableData : List TableData
  schema : DatabaseSchema
deriving DecidableEq, Repr

/-- The provider's initial in-memory state (before load): no tables, an
empty aggregate schema. -/
def initStoreState : StoreState :=
  { tableData := [], schema := { tables := [], relationships := [] } }

/-- The sync effect of TableManagementContext.tsx (lines 50-58): after
`tableData` changes, if it is non-empty, overwrite `schema.tables` with
`tableData.map(td => td.schema)`. -/
def syncSchemaTables (st : StoreState) : StoreState :=
  if st.tableData.length > 0 then
    { st with schema := { st.schema with tables := st.tableData.map (·.schema) } }
  else st

/-- The default grid position `createTable` stamps on a new table:
`{ x: 100 + (tableData.length % 3) * 300, y: 100 +
Math.floor(tableData.length / 3) * 250 }`. -/
def gridPosition (count : Nat) : Position :=
  { x := 100 + (count % 3 : Nat) * 300, y := 100 + (count / 3 : Nat) * 250 }

/-- `createTable(tableSchema)`: unconditionally replace `position` with
the grid default, persist, then append the new `TableData` and the new
schema entry. -/
def createTable (ok : Bool) (st : StoreState) (tableSchema : TableSchema) :
    Except String Unit × StoreState :=
  let tableWithPosition := { tableSchema with position := some (gridPosition st.tableData.length) }
  if ok then
    let newTableData : TableData := { schema := tableWithPosition, rows := [] }
    let st' : StoreState :=
      { tableData := st.tableData ++ [newTableData]
        schema := { st.schema with tables := st.schema.tables ++ [tableWithPosition] } }
    (.ok (), syncSchemaTables st')
  else (.error "Error creating table", st)

/-- `updateTable(tableId, updates)`: merge the partial update into the
matching per-table schema copy and the matching aggregate entry. -/
def updateTable (ok : Bool) (st : StoreState) (tableId : String) (updates : PartialTableSchema) :
    Except String Unit × StoreState :=
  if ok then
    let st' : StoreState :=
      { tableData := st.tableData.map (fun table =>
          if table.schema.id = tableId then
            { table with schema := mergeTableSchema table.schema updates }
          else table)
        schema := { st.schema with tables := st.schema.tables.map (fun table =>
          if table.id = tableId then mergeTableSchema table updates else table) } }
    (.ok (), syncSchemaTables st')
  else (.error "Error updating table", st)

/-- `deleteTable(tableId)`: drop the table's `TableData`, drop it from
the aggregate table list, and drop every relationship whose
`fromTableId` or `toTableId` equals `tableId`. -/
def deleteTable (ok : Bool) (st : StoreState) (tableId : String) :
    Except String Unit × StoreState :=
  if ok then
    let st' : StoreState :=
      { tableData := st.tableData.filter (fun table => table.schema.id ≠ tableId)
        schema :=
          { tables := st.schema.tables.filter (fun table => table.id ≠ tableId)
            relationships := st.schema.relationships.filter (fun rel =>
              rel.fromTableId ≠ tableId ∧ rel.toTableId ≠ tableId) } }
    (.ok (), syncSchemaTables st')
  else (.error "Error deleting table", st)

/-- The row object `addRow` appends: `{ id: Date.now().toString(),
...row }` — the fresh timestamp id, overridden by any `id` key the
caller's row carries.  `freshId` stands for `Date.now().toString()`. -/
def mkNewRow (freshId : String) (row : RowObj) : RowObj :=
  mergeObj [("id", .vStr freshId)] row

/-- `addRow(tableId, row)`: append `{ id: Date.now().toString(),
...row }` to the matching table's rows. -/
def addRow (ok : Bool) (st : StoreState) (tableId : String) (row : RowObj) (freshId : String) :
    Except String Unit × StoreState :=
  if ok then
    let st' : StoreState :=
      { st with tableData := st.tableData.map (fun table =>
          if table.schema.id = tableId then
            { table with rows := table.rows ++ [mkNewRow freshId row] }
          else table) }
    (.ok (), syncSchemaTables st')
  else (.error "Error adding row", st)

/-- `updateRow(tableId, rowId, updates)`: merge the updates into the
row whose `id` equals `rowId` in the matching table. -/
def updateRow (ok : Bool) (st : StoreState) (tableId rowId : String) (updates : RowObj) :
    Except String Unit × StoreState :=
  if ok then
    let st' : StoreState :=
      { st with tableData := st.tableData.map (fun table =>
          if table.schema.id = tableId then
            { table with rows := table.rows.map (fun row =>
                if rowIdOf row = some rowId then mergeObj row updates else row) }
          else table) }
    (.ok (), syncSchemaTables st')
  else (.error "Error updating row", st)

/-- `deleteRow(tableId, rowId)`: drop the row whose `id` equals
`rowId` from the matching table. -/
def deleteRow (ok : Bool) (st : StoreState) (tableId rowId : String) :
    Except String Unit × StoreState :=
  if ok then
    let st' : StoreState :=
      { st with tableData := st.tableData.map (fun table =>
          if table.schema.id = tableId then
            { table with rows := table.rows.filter (fun row => rowIdOf row ≠ some rowId) }
          else table) }
    (.ok (), syncSchemaTables st')
  else (.error "Error deleting row", st)

/-- `addRelationship(relationship)`: append to the aggregate
relationship list. -/
def addRelationship (ok : Bool) (st : StoreState) (relationship : Relationship) :
    Except String Unit × StoreState :=
  if ok then
    (.ok (), { st with schema :=
      { st.schema with relationships := st.schema.relationships ++ [relationship] } })
  else (.error "Error adding relationship", st)

/-- `deleteRelationship(relationshipId)`: drop the matching entry from
the aggregate relationship list. -/
def deleteRelationship (ok : Bool) (st : StoreState) (relationshipId : String) :
    Except String Unit × StoreState :=
  if ok then
    (.ok (), { st with schema :=
      { st.schema with relationships :=
          st.schema.relationships.filter (fun rel => rel.id ≠ relationshipId) } })
  else (.error "Error deleting relationship", st)

/-- `getTableById(tableId)`: pure lookup. -/
def getTableById (st : StoreState) (tableId : String) : Option TableData :=
  st.tableData.find? (fun table => table.schema.id = tableId)

/-- One State Store mutating operation together with its arguments
(fresh ids stand for the `Date.now()` samples taken during the call). -/
inductive StoreOp where
  | create (tableSchema : TableSchema)
  | update (tableId : String) (updates : PartialTableSchema)
  | delete (tableId : String)
  | rowAdd (tableId : String) (row : RowObj) (freshId : String)
  | rowUpdate (tableId rowId : String) (updates : RowObj)
  | rowDelete (tableId rowId : String)
  | relAdd (relationship : Relationship)
  | relDelete (relationshipId : String)
deriving Repr

/-- Run one State Store operation against an adapter whose call
succeeds iff `ok`. -/
def runStoreOp (op : StoreOp) (ok : Bool) (st : StoreState) :
    Except String Unit × StoreState :=
  match op with
  | .create tableSchema => createTable ok st tableSchema
  | .update tableId updates => updateTable ok st tableId updates
  | .delete tableId => deleteTable ok st tableId
  | .rowAdd tableId row freshId => addRow ok st tableId row freshId
  | .rowUpdate tableId rowId updates => updateRow ok st tableId rowId updates
  | .rowDelete tableId rowId => deleteRow ok st tableId rowId
  | .relAdd relationship => addRelationship ok st relationship
  | .relDelete relationshipId => deleteRelationship ok st relationshipId

/-- Apply a sequence of store operations, each with its own adapter
outcome, keeping only the resulting state. -/
def applyStoreOps (st : StoreState) (ops : List (StoreOp × Bool)) : StoreState :=
  ops.foldl (fun s p => (runStoreOp p.1 p.2 s).2) st

/-- The sync effect never touches `tableData`. -/
theorem syncSchemaTables_tableData (st : StoreState) :
    (syncSchemaTables st).tableData = st.tableData := by
  unfold syncSchemaTables
  split <;> rfl

/-- The sync effect never touches the relationship list. -/
theorem syncSchemaTables_relationships (st : StoreState) :
    (syncSchemaTables st).schema.relationships = st.schema.relationships := by
  unfold syncSchemaTables
  split <;> rfl

/-- The sync effect preserves the tables-in-sync invariant. -/
theorem syncSchemaTables_sync (st : StoreState)
    (h : st.schema.tables = st.tableData.map (·.schema)) :
    (syncSchemaTables st).schema.tables = (syncSchemaTables st).tableData.map (·.schema) := by
  unfold syncSchemaTables
  split <;> simpa using h

/-- Filtering tables by id commutes with projecting their schemas. -/
theorem map_schema_filter (l : List TableData) (tid : String) :
    (l.filter (fun td => td.schema.id ≠ tid)).map (·.schema)
      = (l.map (·.schema)).filter (fun t => t.id ≠ tid) := by
  induction l with
  | nil => rfl
  | cons td rest ih =>
    simp only [ne_eq, decide_not] at ih ⊢
    by_cases h : td.schema.id = tid <;>
      simp [List.filter_cons, h, ih]

/-- Updating the matching table commutes with projecting schemas. -/
theorem map_schema_update (l : List TableData) (tid : String) (u : PartialTableSchema) :
    (l.map (fun td => if td.schema.id = tid
        then { td with schema := mergeTableSchema td.schema u } else td)).map (·.schema)
      = (l.map (·.schema)).map (fun t => if t.id = tid then mergeTableSchema t u else t) := by
  induction l with
  | nil => rfl
  | cons td rest ih =>
    by_cases h : td.schema.id = tid <;>
      simp [h, ih]

/-- A store operation drawn from the table-schema subset the sync
invariant ranges over, tagged with its adapter outcome. -/
inductive SchemaOp where
  | create (tableSchema : TableSchema) (ok : Bool)
  | update (tableId : String) (updates : PartialTableSchema) (ok : Bool)
  | delete (tableId : String) (ok : Bool)
deriving Repr

/-- Apply one `createTable`/`updateTable`/`deleteTable` call. -/
def applySchemaOp (st : StoreState) : SchemaOp → StoreState
  | .create tableSchema ok => (createTable ok st tableSchema).2
  | .update tableId updates ok => (updateTable ok st tableId updates).2
  | .delete tableId ok => (deleteTable ok st tableId).2

/-- Apply a sequence of table-schema operations, oldest first. -/
def applySchemaOps (st : StoreState) (ops : List SchemaOp) : StoreState :=
  ops.foldl applySchemaOp st

/-- One `createTable`/`updateTable`/`deleteTable` call preserves the
tables-in-sync invariant. -/
theorem schemaSync_step (st : StoreState) (op : SchemaOp)
    (h : st.schema.tables = st.tableData.map (·.schema)) :
    (applySchemaOp st op).schema.tables = (applySchemaOp st op).tableData.map (·.schema) := by
  cases op with
  | create tableSchema ok =>
    cases ok with
    | false => simpa [applySchemaOp, createTable] using h
    | true =>
      refine syncSchemaTables_sync _ ?_
      simp [createTable, h]
  | update tableId updates ok =>
    cases ok with
    | false => simpa [applySchemaOp, updateTable] using h
    | true =>
      refine syncSchemaTables_sync _ ?_
      simp only [updateTable]
      rw [map_schema_update, ← h]
  | delete tableId ok =>
    cases ok with
    | false => simpa [applySchemaOp, deleteTable] using h
    | true =>
      refine syncSchemaTables_sync _ ?_
      simp only [deleteTable]
      rw [map_schema_filter, ← h]

/-- C4: for any sequence of `createTable`, `updateTable` and
`deleteTable` operations (with arbitrary adapter outcomes), if the
aggregate `DatabaseSchema.tables` list equals the list of per-table
schema copies held in `tableData`, it still does afterwards: the two
never diverge in membership or content. -/
theorem C4_tables_never_diverge (ops : List SchemaOp) :
    ∀ st : StoreState, st.schema.tables = st.tableData.map (·.schema) →
      (applySchemaOps st ops).schema.tables
        = (applySchemaOps st ops).tableData.map (·.schema) := by
  induction ops with
  | nil => intro st h; exact h
  | cons op rest ih =>
    intro st h
    exact ih (applySchemaOp st op) (schemaSync_step st op h)

/-- Witness for C4: a concrete create/update/delete run from the empty
initial state. -/
theorem C4_tables_never_diverge_witness :
    initStoreState.schema.tables = initStoreState.tableData.map (·.schema)
    ∧ (applySchemaOps initStoreState
          [.create { id := "t1", name := "T", columns := [] } true,
           .update "t1" { name := some "U" } true,
           .delete "t1" true]).schema.tables
        = (applySchemaOps initStoreState
          [.create { id := "t1", name := "T", columns := [] } true,
           .update "t1" { name := some "U" } true,
           .delete "t1" true]).tableData.map (·.schema) :=
  ⟨rfl, C4_tables_never_diverge
    [.create { id := "t1", name := "T", columns := [] } true,
     .update "t1" { name := some "U" } true,
     .delete "t1" true] initStoreState rfl⟩

/-- C3: deleting a table id that is present removes from the aggregate
relationship list exactly the relationships whose `fromTableId` or
`toTableId` equals that id, and no others; relationships not mentioning
the id survive in order, and the other tables — including their row
data — are untouched. -/
theorem C3_deleteTable_prunes_relationships (st : StoreState) (tid : String)
    (hpresent : ∃ td ∈ st.tableData, td.schema.id = tid) :
    (deleteTable true st tid).2.schema.relationships
        = st.schema.relationships.filter (fun rel =>
            rel.fromTableId ≠ tid ∧ rel.toTableId ≠ tid)
    ∧ (∀ rel, rel ∈ (deleteTable true st tid).2.schema.relationships ↔
        rel ∈ st.schema.relationships ∧ ¬(rel.fromTableId = tid ∨ rel.toTableId = tid))
    ∧ (deleteTable true st tid).2.tableData
        = st.tableData.filter (fun td => td.schema.id ≠ tid) := by
  have hdef : (deleteTable true st tid).2 = syncSchemaTables
      { tableData := st.tableData.filter (fun table => table.schema.id ≠ tid)
        schema :=
          { tables := st.schema.tables.filter (fun table => table.id ≠ tid)
            relationships := st.schema.relationships.filter (fun rel =>
              rel.fromTableId ≠ tid ∧ rel.toTableId ≠ tid) } } := rfl
  have hrel : (deleteTable true st tid).2.schema.relationships
      = st.schema.relationships.filter (fun rel =>
          rel.fromTableId ≠ tid ∧ rel.toTableId ≠ tid) := by
    rw [hdef, syncSchemaTables_relationships]
  refine ⟨hrel, ?_, ?_⟩
  · intro rel
    rw [hrel, List.mem_filter]
    simp [not_or]
  · rw [hdef, syncSchemaTables_tableData]

/-- A concrete two-table state with three relationships, used by the
C3 witness. -/
def c3State : StoreState :=
  { tableData :=
      [{ schema := { id := "a", name := "A", columns := [] }, rows := [[("id", Value.vStr "r1")]] },
       { schema := { id := "b", name := "B", columns := [] }, rows := [] }],
    schema :=
      { tables :=
          [{ id := "a", name := "A", columns := [] }, { id := "b", name := "B", columns := [] }],
        relationships :=
          [{ id := "r1", fromTableId := "a", fromColumnId := "c1", toTableId := "b",
             toColumnId := "c2", type := "one-to-many" },
           { id := "r2", fromTableId := "b", fromColumnId := "c3", toTableId := "a",
             toColumnId := "c4", type := "one-to-one" },
           { id := "r3", fromTableId := "b", fromColumnId := "c5", toTableId := "b",
             toColumnId := "c6", type := "many-to-many" }] } }

/-- Witness for C3 at a concrete two-table state with three
relationships. -/
theorem C3_deleteTable_prunes_relationships_witness :
    (∃ td ∈ c3State.tableData, td.schema.id = "a")
    ∧ (deleteTable true c3State "a").2.schema.relationships
        = c3State.schema.relationships.filter
            (fun rel => rel.fromTableId ≠ "a" ∧ rel.toTableId ≠ "a") :=
  ⟨⟨_, List.mem_cons_self _ _, rfl⟩,
   (C3_deleteTable_prunes_relationships c3State "a" ⟨_, List.mem_cons_self _ _, rfl⟩).1⟩

/-- `LocalStorageDataService.addRow` (services/LocalStorageDataService.ts
lines 109-119): the persisted document gets the same
`{ id: Date.now().toString(), ...row }` merge appended to the matching
table, with its own independently sampled timestamp id. -/
def LocalStorageDataService_addRow (doc : StoreState) (tableId : String) (row : RowObj)
    (freshId : String) : StoreState :=
  { doc with tableData := doc.tableData.map (fun table =>
      if table.schema.id = tableId then
        { table with rows := table.rows ++ [mkNewRow freshId row] }
      else table) }

/-- A key that fails to look up has no matching pair in the list. -/
theorem lookup_none_notmem (row : RowObj) (k : String) (h : row.lookup k = none) :
    ∀ v : Value, (k, v) ∉ row := by
  induction row with
  | nil => simp
  | cons q rest ih =>
    rcases q with ⟨a, b⟩
    by_cases hk : k = a
    · subst hk
      simp [List.lookup] at h
    · rw [List.lookup, beq_false_of_ne hk] at h
      intro v hv
      rcases List.mem_cons.mp hv with h1 | h2
      · exact hk (congrArg Prod.fst h1)
      · exact ih h v h2

/-- A key that looks up successfully has its first matching pair in the
list. -/
theorem lookup_some_mem (row : RowObj) (k : String) (v : Value)
    (h : row.lookup k = some v) :
    (k, v) ∈ row := by
  induction row with
  | nil => simp [List.lookup] at h
  | cons q rest ih =>
    rcases q with ⟨a, b⟩
    by_cases hk : k = a
    · subst hk
      simp [List.lookup] at h
      rw [← h]
      exact List.mem_cons_self _ _
    · rw [List.lookup, beq_false_of_ne hk] at h
      exact List.mem_cons_of_mem _ (ih h)

/-- Looking up `"id"` in `{ id: freshId, ...row }`: the caller's `id`
field wins when present, the fresh id is used otherwise. -/
theorem mkNewRow_lookup_id (freshId : String) (row : RowObj) :
    (mkNewRow freshId row).lookup "id"
      = some ((row.lookup "id").getD (Value.vStr freshId)) := by
  unfold mkNewRow mergeObj
  cases hl : row.lookup "id" with
  | none =>
    rw [show ([(("id", Value.vStr freshId))].filter
          (fun p => row.all (fun q => q.1 ≠ p.1)))
        = [("id", Value.vStr freshId)] from by
      simp [List.filter_cons, lookup_none_notmem row "id" hl]]
    simp [List.lookup]
  | some w =>
    rw [show ([(("id", Value.vStr freshId))].filter
          (fun p => row.all (fun q => q.1 ≠ p.1)))
        = [] from by
      simp [List.filter_cons]
      exact ⟨w, lookup_some_mem row "id" w hl⟩]
    simp [hl]

/-- Looking up any other key in `{ id: freshId, ...row }` gives the
caller's value. -/
theorem mkNewRow_lookup_ne (freshId : String) (row : RowObj) (k : String) (hk : k ≠ "id") :
    (mkNewRow freshId row).lookup k = row.lookup k := by
  unfold mkNewRow mergeObj
  by_cases hall : ∀ v : Value, ("id", v) ∉ row
  · rw [show ([(("id", Value.vStr freshId))].filter
          (fun p => row.all (fun q => q.1 ≠ p.1)))
        = [("id", Value.vStr freshId)] from by
      simp [List.filter_cons, hall]]
    rw [List.singleton_append, List.lookup, beq_false_of_ne hk]
  · rw [show ([(("id", Value.vStr freshId))].filter
          (fun p => row.all (fun q => q.1 ≠ p.1)))
        = [] from by
      simp [List.filter_cons]
      obtain ⟨v, hv⟩ := not_forall.mp hall
      exact ⟨v, not_not.mp hv⟩]
    simp

/-- C5: when the storage adapter call rejects, every State Store
mutating operation rethrows the error to its caller and leaves the
in-memory `tableData` and `schema` completely unchanged — no partial
application. -/
theorem C5_failure_leaves_state_unchanged (op : StoreOp) (st : StoreState) :
    (runStoreOp op false st).2 = st
    ∧ ∃ msg, (runStoreOp op false st).1 = .error msg := by
  cases op <;> exact ⟨rfl, _, rfl⟩

/-- A one-table state whose single row already has id `"5"`, used by
the C7 counterexample. -/
def c7State : StoreState :=
  { tableData :=
      [{ schema := { id := "t1", name := "T", columns := [] },
         rows := [[("id", Value.vStr "5")]] }],
    schema := { tables := [{ id := "t1", name := "T", columns := [] }], relationships := [] } }

/-- C7 counterexample: calling `addRow` with row fields that carry
`id: "5"` while the fresh timestamp id is `"100"` stores the new row
with id `"5"` — identical to the id of the row already present, and not
the freshly assigned id. -/
theorem C7_counterexample :
    (addRow true c7State "t1" [("id", Value.vStr "5")] "100").2.tableData.map
        (fun td => td.rows.map rowIdOf)
      = [[some "5", some "5"]]
    ∧ ("100" : String) ≠ "5" := by
  constructor
  · rfl
  · decide

/-- C7 as amended: `addRow` appends the merged row `{ id:
Date.now().toString(), ...row }` at the end of the matching table's row
sequence and leaves the other tables untouched; the stored id is the
fresh timestamp only when the caller's row fields carry no `id` key — a
caller-supplied `id` overrides it (so neither uniqueness against
existing rows nor agreement between the separately sampled in-memory
and persisted timestamps is guaranteed); every other field is stored
exactly as supplied.  The persisted copy built by
`LocalStorageDataService.addRow` appends the same merge with its own
timestamp sample. -/
theorem C7_addRow_amended (st : StoreState) (tableId : String) (row : RowObj)
    (freshId : String) :
    (∀ td ∈ st.tableData, td.schema.id = tableId →
        ({ td with rows := td.rows ++ [mkNewRow freshId row] } : TableData)
          ∈ (addRow true st tableId row freshId).2.tableData)
    ∧ (∀ td ∈ st.tableData, td.schema.id ≠ tableId →
        td ∈ (addRow true st tableId row freshId).2.tableData)
    ∧ (mkNewRow freshId row).lookup "id"
        = some ((row.lookup "id").getD (Value.vStr freshId))
    ∧ (∀ k, k ≠ "id" → (mkNewRow freshId row).lookup k = row.lookup k)
    ∧ (∀ doc : StoreState, ∀ otherFreshId : String, ∀ td ∈ doc.tableData,
        td.schema.id = tableId →
        ({ td with rows := td.rows ++ [mkNewRow otherFreshId row] } : TableData)
          ∈ (LocalStorageDataService_addRow doc tableId row otherFreshId).tableData) := by
  have htd : (addRow true st tableId row freshId).2.tableData
      = st.tableData.map (fun table =>
          if table.schema.id = tableId then
            { table with rows := table.rows ++ [mkNewRow freshId row] }
          else table) := by
    rw [show (addRow true st tableId row freshId).2 = syncSchemaTables
        { st with tableData := st.tableData.map (fun table =>
            if table.schema.id = tableId then
              { table with rows := table.rows ++ [mkNewRow freshId row] }
            else table) } from rfl,
      syncSchemaTables_tableData]
  refine ⟨?_, ?_, mkNewRow_lookup_id freshId row, mkNewRow_lookup_ne freshId row, ?_⟩
  · intro td htd' hid
    rw [htd]
    exact List.mem_map.mpr ⟨td, htd', by simp [hid]⟩
  · intro td htd' hid
    rw [htd]
    exact List.mem_map.mpr ⟨td, htd', by simp [hid]⟩
  · intro doc otherFreshId td htd' hid
    exact List.mem_map.mpr ⟨td, htd', by simp [hid]⟩

/-- Witness for C7's amended theorem at a concrete row and key. -/
theorem C7_addRow_amended_witness :
    ("x" : String) ≠ "id"
    ∧ (mkNewRow "100" [("x", Value.vNum 1)]).lookup "x"
        = ([(("x" : String), Value.vNum 1)]).lookup "x" :=
  ⟨by decide,
   (C7_addRow_amended initStoreState "t" [("x", Value.vNum 1)] "100").2.2.2.1 "x" (by decide)⟩

/-- A schema that already carries a position, used by the C9
counterexample. -/
def c9Schema : TableSchema :=
  { id := "t9", name := "T9", columns := [], position := some { x := 5, y := 7 } }

/-- C9 counterexample: `createTable` on a schema that already carries
position `(5, 7)` stores the grid default `(100, 100)` instead — the
supplied position is not preserved. -/
theorem C9_counterexample :
    (createTable true initStoreState c9Schema).2.tableData.map (fun td => td.schema.position)
        = [some { x := 100, y := 100 }]
    ∧ c9Schema.position = some { x := 5, y := 7 } := by
  constructor
  · rfl
  · rfl

/-- C9 as amended: `createTable` always stamps the stored schema with
the deterministic 3-column-grid position `x = 100 + (tableCount % 3) *
300`, `y = 100 + (tableCount / 3) * 250`, unconditionally overwriting
whatever position the supplied schema carries — the supplied position
has no effect on the stored table at all. -/
theorem C9_createTable_always_grid_position (st : StoreState) (tableSchema : TableSchema) :
    ((createTable true st tableSchema).2.tableData.map (fun td => td.schema)).getLast?
        = some (TableSchema.mk tableSchema.id tableSchema.name tableSchema.columns
            (some (Position.mk (100 + ((st.tableData.length % 3 : Nat) : Int) * 300)
              (100 + ((st.tableData.length / 3 : Nat) : Int) * 250))))
    ∧ (∀ p q : Option Position,
        createTable true st { tableSchema with position := p }
          = createTable true st { tableSchema with position := q })
    ∧ (createTable true st tableSchema).2.tableData.length = st.tableData.length + 1 := by
  have htd : (createTable true st tableSchema).2.tableData
      = st.tableData ++ [{ schema := { tableSchema with
            position := some (gridPosition st.tableData.length) }, rows := [] }] := by
    rw [show (createTable true st tableSchema).2 = syncSchemaTables
        { tableData := st.tableData ++ [{ schema := { tableSchema with
              position := some (gridPosition st.tableData.length) }, rows := [] }],
          schema := { st.schema with tables := st.schema.tables
              ++ [{ tableSchema with position := some (gridPosition st.tableData.length) }] } }
        from rfl,
      syncSchemaTables_tableData]
  refine ⟨?_, fun p q => rfl, ?_⟩
  · rw [htd]
    simp [gridPosition]
  · rw [htd]
    simp

/-! ## Connection validation (src/components/FlowCanvas.tsx) -/

/-- A candidate connection as handed to `isValidConnection`. -/
structure Connection where
  source : String
  target : String
  sourceHandle : Option String := none
  targetHandle : Option String := none
deriving DecidableEq, Repr

/-- JS `handle || dflt`: `null`, `undefined` and the empty string are
all falsy and fall back to the default handle name. -/
def resolveHandle (handle : Option String) (dflt : String) : String :=
  match handle with
  | none => dflt
  | some s => if s = "" then dflt else s

/-- `isValidConnection` from FlowCanvas.tsx lines 171-196: reject
self-loops; resolve both endpoints in the node list (reject if either
is missing); accept only Storage/Miscellaneous → Transform or
Transform → Storage/Miscellaneous, and only from an output-role source
handle (`output`/`output-right`, defaulting to `output`) to an
input-role target handle (`input`/`input-left`, defaulting to
`input`). -/
def isValidConnection (nodes : List FlowNode) (connection : Connection) : Bool :=
  if connection.source = connection.target then false
  else
    match nodes.find? (fun n => n.id = connection.source),
        nodes.find? (fun n => n.id = connection.target) with
    | some sourceNode, some targetNode =>
      let isValidSourceToTarget :=
        ((sourceNode.data.category = some "Storage"
            ∨ sourceNode.data.category = some "Miscellaneous")
          ∧ targetNode.data.category = some "Transform")
        ∨ (sourceNode.data.category = some "Transform"
          ∧ (targetNode.data.category = some "Storage"
            ∨ targetNode.data.category = some "Miscellaneous"))
      let sourceHandle := resolveHandle connection.sourceHandle "output"
      let targetHandle := resolveHandle connection.targetHandle "input"
      isValidSourceToTarget
        ∧ (sourceHandle = "output" ∨ sourceHandle = "output-right")
        ∧ (targetHandle = "input" ∨ targetHandle = "input-left")
    | _, _ => false

/-- C6: `isValidConnection` rejects every self-loop and every
Transform → Transform endpoint pair, and accepts every
Storage/Miscellaneous → Transform and Transform → Storage/Miscellaneous
pair whose resolved handles are an output role on the source and an
input role on the target (absent handles defaulting to the canonical
`output`/`input` roles). -/
theorem C6_isValidConnection_rules :
    (∀ (nodes : List FlowNode) (c : Connection),
        c.source = c.target → isValidConnection nodes c = false)
    ∧ (∀ (nodes : List FlowNode) (c : Connection) (s t : FlowNode),
        nodes.find? (fun n => n.id = c.source) = some s →
        nodes.find? (fun n => n.id = c.target) = some t →
        s.data.category = some "Transform" → t.data.category = some "Transform" →
        isValidConnection nodes c = false)
    ∧ (∀ (nodes : List FlowNode) (c : Connection) (s t : FlowNode),
        nodes.find? (fun n => n.id = c.source) = some s →
        nodes.find? (fun n => n.id = c.target) = some t →
        (((s.data.category = some "Storage" ∨ s.data.category = some "Miscellaneous")
            ∧ t.data.category = some "Transform")
          ∨ (s.data.category = some "Transform"
            ∧ (t.data.category = some "Storage" ∨ t.data.category = some "Miscellaneous"))) →
        (resolveHandle c.sourceHandle "output" = "output"
          ∨ resolveHandle c.sourceHandle "output" = "output-right") →
        (resolveHandle c.targetHandle "input" = "input"
          ∨ resolveHandle c.targetHandle "input" = "input-left") →
        isValidConnection nodes c = true) := by
  refine ⟨?_, ?_, ?_⟩
  · intro nodes c hst
    simp [isValidConnection, hst]
  · intro nodes c s t hs ht hcs hct
    by_cases hst : c.source = c.target
    · simp [isValidConnection, hst]
    · simp only [isValidConnection, if_neg hst, hs, ht]
      simp [hcs, hct]
  · intro nodes c s t hs ht hcat hsh hth
    have hst : ¬ c.source = c.target := by
      intro heq
      rw [heq, ht] at hs
      have hsteq : s = t := by
        injection hs with h
        exact h.symm
      subst hsteq
      rcases hcat with ⟨hs1 | hs1, hs2⟩ | ⟨hs1, hs2 | hs2⟩ <;>
        · rw [hs1] at hs2
          simp at hs2
    simp only [isValidConnection, if_neg hst, hs, ht]
    rw [decide_eq_true_eq]
    exact ⟨hcat, hsh, hth⟩

/-- A Storage node used by the C6 witness. -/
def c6Storage : FlowNode :=
  { id := "a", type := "default", position := { x := 0, y := 0 },
    data := { label := "A", category := some "Storage" } }

/-- A Transform node used by the C6 witness. -/
def c6Transform : FlowNode :=
  { id := "b", type := "default", position := { x := 0, y := 0 },
    data := { label := "B", category := some "Transform" } }

/-- Witness for C6: a concrete Storage → Transform connection with
absent handles is accepted. -/
theorem C6_isValidConnection_rules_witness :
    isValidConnection [c6Storage, c6Transform] { source := "a", target := "b" } = true :=
  C6_isValidConnection_rules.2.2 [c6Storage, c6Transform]
    { source := "a", target := "b" } c6Storage c6Transform
    (by decide) (by decide) (Or.inl ⟨Or.inl rfl, rfl⟩) (Or.inl rfl) (Or.inl rfl)

/-! ## CSV export/import (utils embedded in src/FlowCanvas.js)

`exportToCSV` builds a header (column names in schema order) and a grid
of string cells and hands them to `Papa.unparse`; `importFromCSV` runs
`Papa.parse` with headers and coerces each record per column.  The
Papa.unparse/Papa.parse pair is an external library and is the identity
at this grid level (quote-escaping makes the text round-trip exact), so
the embedding keeps the header + grid representation; `csvRecords`
below is that identity transport.  JS `Date` parsing inside the date
branch is platform behaviour and is abstracted as the `dateFn`
parameter. -/

/-- JS stringification of a scalar cell value (as performed by
`Array.prototype.join` and `Papa.unparse`). -/
def ScalarValue.jsToString : ScalarValue → String
  | .sStr s => s
  | .sNum n => toString n
  | .sBool b => if b then "true" else "false"

/-- JS truthiness of a scalar, as tested by `value || ''`: the empty
string, the number 0 and `false` are falsy. -/
def ScalarValue.truthy : ScalarValue → Bool
  | .sStr s => s ≠ ""
  | .sNum n => n ≠ 0
  | .sBool b => b

/-- One exported CSV cell: `Array.isArray(value)` joins list items with
`;`; otherwise `value || ''` — a missing or falsy value exports as the
empty string. -/
def exportCell (value : Option Value) : String :=
  match value with
  | some (.list items) => String.intercalate ";" (items.map ScalarValue.jsToString)
  | some (.scalar v) => if v.truthy then v.jsToString else ""
  | none => ""

/-- `exportToCSV(tableData)` up to the `Papa.unparse` call: the header
row (column names in schema order) and the cell grid (each row mapped
over the schema columns, looked up by column id).  The source also
alerts and aborts when `rows` is empty; that UI path produces no grid
at all. -/
def exportToCSV_grid (tableData : TableData) : List String × List (List String) :=
  (tableData.schema.columns.map (fun col => col.name),
   tableData.rows.map (fun row =>
     tableData.schema.columns.map (fun col => exportCell (row.lookup col.id))))

/-- `Papa.parse(Papa.unparse({fields, data}), {header: true})`: each
data row becomes a record keyed by the header names. -/
def csvRecords (fields : List String) (data : List (List String)) :
    List (List (String × String)) :=
  data.map (fun cells => fields.zip cells)

/-- Digits-to-number accumulator for the integer fragment of
`parseFloat`. -/
def natOfDigits (cs : List Char) : Nat :=
  cs.foldl (fun n c => n * 10 + (c.toNat - 48)) 0

/-- The integer fragment of JS `parseFloat`: an optional minus sign
followed by digits.  (Fractional syntax and prefix parsing are outside
the values this program produces for integer-valued cells.) -/
def parseNumber (s : String) : Option Int :=
  match s.toList with
  | [] => none
  | ('-') :: rest =>
    if rest ≠ [] ∧ rest.all (fun c => c.isDigit) then some (-(natOfDigits rest : Int))
    else none
  | cs =>
    if cs.all (fun c => c.isDigit) then some ((natOfDigits cs : Int))
    else none

/-- Per-column scalar coercion of `importFromCSV`: number via
`parseFloat(value) || 0`, boolean via `value.toLowerCase() === 'true'`,
date through the platform `Date` pipeline (`dateFn`), string as-is. -/
def importScalar (dateFn : String → String) (colType : String) (value : String) : Value :=
  match colType with
  | "number" => Value.vNum ((parseNumber value).getD 0)
  | "boolean" => Value.vBool (value.toLower == "true")
  | "date" => Value.vStr (dateFn value)
  | _ => Value.vStr value

/-- List-column cell splitting of `importFromCSV`: split on `;`, trim,
drop empty items. -/
def importListItems (value : String) : List String :=
  ((value.splitOn ";").map (fun item => item.trim)).filter (fun item => item ≠ "")

/-- Per-column list coercion of `importFromCSV`. -/
def importListValue (dateFn : String → String) (colType : String) (value : String) : Value :=
  match colType with
  | "number" => .list ((importListItems value).map (fun item => .sNum ((parseNumber item).getD 0)))
  | "boolean" => .list ((importListItems value).map (fun item => .sBool (item.toLower == "true")))
  | "date" => .list ((importListItems value).map (fun item => .sStr (dateFn item)))
  | _ => .list ((importListItems value).map (fun item => .sStr item))

/-- One record of `importFromCSV`: start from `{ id:
`imported-${Date.now()}-${index}` }`, then for each schema column take
the header-matched cell; skip it when missing or empty (defaulting list
columns to `[]`), otherwise coerce per the column type. -/
def processRecord (dateFn : String → String) (columns : List Column) (importedId : String)
    (record : List (String × String)) : RowObj :=
  columns.foldl (fun processedRow col =>
    match record.lookup col.name with
    | some value =>
      if value ≠ "" then
        processedRow ++ [(col.id,
          if col.isList.getD false then importListValue dateFn col.type value
          else importScalar dateFn col.type value)]
      else if col.isList.getD false then processedRow ++ [(col.id, Value.list [])]
      else processedRow
    | none =>
      if col.isList.getD false then processedRow ++ [(col.id, Value.list [])]
      else processedRow)
    [("id", Value.vStr importedId)]

/-- The generated import row id `imported-${Date.now()}-${index}`. -/
def mkImportId (now : String) (i : Nat) : String :=
  "imported-" ++ now ++ "-" ++ toString i

/-- `importFromCSV(file, columns)` after parsing: process every record,
then keep only rows that gained at least one column beyond the
generated `id` (`Object.keys(row).length > 1`). -/
def importFromCSV (dateFn : String → String) (columns : List Column) (now : String)
    (records : List (List (String × String))) : List RowObj :=
  (records.enum.map (fun p => processRecord dateFn columns (mkImportId now p.1) p.2)).filter
    (fun row => row.length > 1)

/-- The number column of the C8 failing input. -/
def c8NumColumn : Column :=
  { id := "c1", name := "n", type := "number", required := false, unique := false }

/-- A one-column number table whose single row holds the value 0. -/
def c8NumTable : TableData :=
  { schema := { id := "t1", name := "T", columns := [c8NumColumn] },
    rows := [[("id", Value.vStr "r1"), ("c1", Value.vNum 0)]] }

/-- The boolean column of the C8 failing input. -/
def c8BoolColumn : Column :=
  { id := "c2", name := "b", type := "boolean", required := false, unique := false }

/-- A one-column boolean table whose single row holds `false`. -/
def c8BoolTable : TableData :=
  { schema := { id := "t2", name := "B", columns := [c8BoolColumn] },
    rows := [[("id", Value.vStr "r2"), ("c2", Value.vBool false)]] }

/-- C8 failing input, evaluated: exporting a row whose number cell is 0
(or whose boolean cell is `false`) writes an empty CSV cell
(`value || ''`), and re-importing the resulting record skips the empty
cell and then drops the whole row (only the generated id remains), so
the round trip returns no rows at all instead of the original values. -/
theorem C8_csv_roundtrip_loses_zero_and_false :
    (exportToCSV_grid c8NumTable).2 = [[""]]
    ∧ importFromCSV (fun s => s) [c8NumColumn] "123"
        (csvRecords (exportToCSV_grid c8NumTable).1 (exportToCSV_grid c8NumTable).2) = []
    ∧ (exportToCSV_grid c8BoolTable).2 = [[""]]
    ∧ importFromCSV (fun s => s) [c8BoolColumn] "123"
        (csvRecords (exportToCSV_grid c8BoolTable).1 (exportToCSV_grid c8BoolTable).2) = [] := by
  refine ⟨rfl, rfl, rfl, rfl⟩

/-- C1: from a fresh history, after `saveState(A)`, `saveState(B)`,
`undo()` the current state is `A`; a subsequent `redo()` yields `B`;
after `undo()` then `saveState(C)`, `redo()` is a no-op (the `B` branch
was discarded) and the current state is `C`; moreover `undo()` is a
no-op when the cursor is at index 0 and `redo()` is a no-op when the
cursor is at the newest entry. -/
theorem C1_history_linear_undo_redo (A B C : FlowState) :
    getCurrentState (undo (saveState (saveState (initHistState [] []) A.nodes A.edges) B.nodes B.edges)) = A
    ∧ getCurrentState (redo (undo (saveState (saveState (initHistState [] []) A.nodes A.edges) B.nodes B.edges))) = B
    ∧ saveState (undo (saveState (saveState (initHistState [] []) A.nodes A.edges) B.nodes B.edges)) C.nodes C.edges
        = redo (saveState (undo (saveState (saveState (initHistState [] []) A.nodes A.edges) B.nodes B.edges)) C.nodes C.edges)
    ∧ getCurrentState (saveState (undo (saveState (saveState (initHistState [] []) A.nodes A.edges) B.nodes B.edges)) C.nodes C.edges) = C
    ∧ (∀ st : HistState, st.currentIndex = 0 → undo st = st)
    ∧ (∀ st : HistState, st.currentIndex = st.history.length - 1 → redo st = st) := by
  refine ⟨?_, ?_, ?_, ?_, ?_, ?_⟩
  · simp [saveState, undo, getCurrentState, initHistState, MAX_HISTORY_SIZE]
  · simp [saveState, undo, redo, getCurrentState, initHistState, MAX_HISTORY_SIZE]
  · simp [saveState, undo, redo, initHistState, MAX_HISTORY_SIZE]
  · simp [saveState, undo, getCurrentState, initHistState, MAX_HISTORY_SIZE]
  · intro st h
    simp [undo, h]
  · intro st h
    simp [redo, h]

/-- The History Tracker's cursor invariant is preserved by every single
operation: the log stays non-empty and the cursor stays in bounds. -/
theorem histInv_step (st : HistState) (op : HistOp)
    (h1 : 0 < st.history.length) (h2 : st.currentIndex < st.history.length) :
    0 < (applyHistOp st op).history.length
    ∧ (applyHistOp st op).currentIndex < (applyHistOp st op).history.length := by
  cases op with
  | save nodes edges =>
    by_cases hf : st.isUndoRedoAction
    · simpa [applyHistOp, saveState, hf] using And.intro h1 h2
    · simp only [applyHistOp, saveState, hf, Bool.false_eq_true, if_false]
      constructor <;>
        · split <;>
            simp_all [List.length_drop, List.length_append, List.length_take,
              MAX_HISTORY_SIZE] <;>
            omega
  | undo =>
    by_cases hu : st.currentIndex > 0
    · simp only [applyHistOp, undo, hu, if_true]
      exact ⟨h1, by omega⟩
    · simpa [applyHistOp, undo, hu] using And.intro h1 h2
  | redo =>
    by_cases hr : st.currentIndex < st.history.length - 1
    · simp only [applyHistOp, redo, hr, if_true]
      exact ⟨h1, by omega⟩
    · simpa [applyHistOp, redo, hr] using And.intro h1 h2
  | clear =>
    simp [applyHistOp, clearHistory]

/-- The cursor invariant is preserved by arbitrary operation
sequences. -/
theorem histInv_ops (ops : List HistOp) :
    ∀ st : HistState, 0 < st.history.length → st.currentIndex < st.history.length →
      0 < (applyHistOps st ops).history.length
      ∧ (applyHistOps st ops).currentIndex < (applyHistOps st ops).history.length := by
  induction ops with
  | nil => intro st h1 h2; exact ⟨h1, h2⟩
  | cons op rest ih =>
    intro st h1 h2
    have hstep := histInv_step st op h1 h2
    have : applyHistOps st (op :: rest) = applyHistOps (applyHistOp st op) rest := rfl
    rw [this]
    exact ih (applyHistOp st op) hstep.1 hstep.2

/-- C10: after any sequence of `saveState`, `undo`, `redo` and
`clearHistory` operations from a fresh history, the log is non-empty,
the cursor is a valid index into it, and `getCurrentState()` returns
the stored snapshot at the cursor — it never falls through to its
empty-state fallback. -/
theorem C10_cursor_always_valid (initialNodes : List FlowNode) (initialEdges : List FlowEdge)
    (ops : List HistOp) :
    0 < (applyHistOps (initHistState initialNodes initialEdges) ops).history.length
    ∧ (applyHistOps (initHistState initialNodes initialEdges) ops).currentIndex
        < (applyHistOps (initHistState initialNodes initialEdges) ops).history.length
    ∧ (applyHistOps (initHistState initialNodes initialEdges) ops).history.get?
          (applyHistOps (initHistState initialNodes initialEdges) ops).currentIndex
        = some (getCurrentState (applyHistOps (initHistState initialNodes initialEdges) ops)) := by
  have hinv := histInv_ops ops (initHistState initialNodes initialEdges)
    (by simp [initHistState]) (by simp [initHistState])
  refine ⟨hinv.1, hinv.2, ?_⟩
  have h2 := hinv.2
  rw [getCurrentState, List.getD_eq_getElem?_getD, List.get?_eq_getElem?]
  cases hx : (applyHistOps (initHistState initialNodes initialEdges) ops).history[(applyHistOps (initHistState initialNodes initialEdges) ops).currentIndex]? with
  | none =>
    rw [List.getElem?_eq_none_iff] at hx
    omega
  | some v => simp

/-- Witness for C1 at concrete snapshots and a concrete state. -/
theorem C1_history_linear_undo_redo_witness :
    (initHistState [] []).currentIndex = 0
    ∧ undo (initHistState [] []) = initHistState [] []
    ∧ (initHistState [] []).currentIndex = (initHistState [] []).history.length - 1
    ∧ redo (initHistState [] []) = initHistState [] [] := by
  have h := C1_history_linear_undo_redo ⟨[], []⟩ ⟨[], []⟩ ⟨[], []⟩
  exact ⟨rfl, h.2.2.2.2.1 (initHistState [] []) rfl, rfl,
    h.2.2.2.2.2 (initHistState [] []) rfl⟩

end NodeFlow
